import Mathlib

/-!
Shallow embedding of the `lehmerand` crate (src/lib.rs), a 128-bit
multiplicative Lehmer random number generator.  The mutable `Cell<u128>`
state is modelled by explicit state passing: a generator is identified
with its state, a `Nat` taken modulo `2 ^ 128`, and every method of `Rng`
becomes a function from the pre-state to a value / post-state pair.
-/

namespace Lehmerand

/-- The constant `MULT: u128` from src/lib.rs. -/
def MULT : Nat := 0x12e15e35b500f16e2e714eb2b37916a5

/-- The constant `MASK_LOW: u64` from src/lib.rs. -/
def MASK_LOW : Nat := 0x00000000ffffffff

/-- The constant `MASK_HIGH: u64` from src/lib.rs. -/
def MASK_HIGH : Nat := 0xffffffff00000000

/-- Rust `Rng::next_state`: `state := state.wrapping_mul(MULT)` on `u128`,
returning the new state. -/
def next_state (s : Nat) : Nat := s * MULT % 2 ^ 128

/-- Rust `Rng::with_seed`: the initial state is `(seed << 1) | 1`, the shift
wrapping modulo `2 ^ 128` as it does on `u128`. -/
def with_seed (seed : Nat) : Nat := (seed <<< 1) % 2 ^ 128 ||| 1

/-- Rust `Rng::gen_u64` as a state transformer: advance once and return the
high 64 bits of the new state, together with the new state. -/
def gen_u64Step (s : Nat) : Nat × Nat :=
  let s' := next_state s
  (s' >>> 64, s')

/-- Rust `Rng::u64`: forwards to `gen_u64`. -/
def u64Step (s : Nat) : Nat × Nat := gen_u64Step s

/-- Rust `Rng::u32`: one `gen_u64` draw, then XOR of its two 32-bit halves
extracted with `MASK_LOW` and `MASK_HIGH`. -/
def u32Step (s : Nat) : Nat × Nat :=
  let p := gen_u64Step s
  let low := p.1 &&& MASK_LOW
  let high := (p.1 &&& MASK_HIGH) >>> 32
  (high ^^^ low, p.2)

/-- Rust `Rng::u16`: the `u32` draw shifted right by 16 and truncated. -/
def u16Step (s : Nat) : Nat × Nat :=
  let p := u32Step s
  (p.1 >>> 16, p.2)

/-- Rust `Rng::u8`: the `u32` draw shifted right by 24 and truncated. -/
def u8Step (s : Nat) : Nat × Nat :=
  let p := u32Step s
  (p.1 >>> 24, p.2)

/-- Two's-complement reinterpretation of a `w`-bit unsigned value, the meaning
of the Rust round trip `iN::from_le_bytes(uN.to_le_bytes())`. -/
def toSigned (w v : Nat) : Int :=
  if v < 2 ^ (w - 1) then (v : Int) else (v : Int) - 2 ^ w

/-- Rust `Rng::i64`: the `gen_u64` draw reinterpreted as `i64`. -/
def i64Step (s : Nat) : Int × Nat :=
  let p := gen_u64Step s
  (toSigned 64 p.1, p.2)

/-- Rust `Rng::i32`: the `u32` draw reinterpreted as `i32`. -/
def i32Step (s : Nat) : Int × Nat :=
  let p := u32Step s
  (toSigned 32 p.1, p.2)

/-- Rust `Rng::i16`: the `u16` draw reinterpreted as `i16`. -/
def i16Step (s : Nat) : Int × Nat :=
  let p := u16Step s
  (toSigned 16 p.1, p.2)

/-- Rust `Rng::i8`: the `u8` draw reinterpreted as `i8`. -/
def i8Step (s : Nat) : Int × Nat :=
  let p := u8Step s
  (toSigned 8 p.1, p.2)

/-- Rust `impl Clone for Rng`: `Rng(Cell::new(self.next_state()))`.  The first
component is the source generator's post-state (mutated by `next_state`), the
second is the duplicate's initial state (the value `next_state` returned). -/
def cloneStep (s : Nat) : Nat × Nat :=
  let s' := next_state s
  (s', s')

/-- The thread-local seed source's initial state from src/lib.rs: a 64-bit
hash `h` of the current instant and thread id, computed as `hash << 1 | 1` on
`u64` and zero-extended into `u128`.  The ambient hash is modelled as an
arbitrary `h < 2 ^ 64`. -/
def seedSourceInit (h : Nat) : Nat := (h <<< 1) % 2 ^ 64 ||| 1

/-- Rust `Rng::new`: draw `next_state` from the thread-local seed source
(state `t`).  The first component is the new generator's initial state, the
second is the seed source's post-state. -/
def newStep (t : Nat) : Nat × Nat :=
  let s := next_state t
  (s, s)

/-- The state after `n` applications of the raw transition function. -/
def stateAfterN (s : Nat) : Nat → Nat
  | 0 => s
  | n + 1 => next_state (stateAfterN s n)

/-- The `n`-th 64-bit draw (counting from 0) of a generator whose current
state is `s`. -/
def u64Seq (s n : Nat) : Nat := (u64Step (stateAfterN s n)).1

/-- One public extraction method of `Rng`. -/
inductive Extractor
  | u64 | u32 | u16 | u8 | i64 | i32 | i16 | i8

/-- The post-state of a single extractor call. -/
def callState (e : Extractor) (s : Nat) : Nat :=
  match e with
  | .u64 => (u64Step s).2
  | .u32 => (u32Step s).2
  | .u16 => (u16Step s).2
  | .u8 => (u8Step s).2
  | .i64 => (i64Step s).2
  | .i32 => (i32Step s).2
  | .i16 => (i16Step s).2
  | .i8 => (i8Step s).2

/-- The value produced by a single extractor call, with unsigned outputs
embedded into `Int` so that all widths share one type. -/
def callValue (e : Extractor) (s : Nat) : Int :=
  match e with
  | .u64 => ((u64Step s).1 : Int)
  | .u32 => ((u32Step s).1 : Int)
  | .u16 => ((u16Step s).1 : Int)
  | .u8 => ((u8Step s).1 : Int)
  | .i64 => (i64Step s).1
  | .i32 => (i32Step s).1
  | .i16 => (i16Step s).1
  | .i8 => (i8Step s).1

/-- The final state after a sequence of extractor calls. -/
def runState (s : Nat) : List Extractor → Nat
  | [] => s
  | e :: cs => runState (callState e s) cs

/-- The sequence of outputs produced by a sequence of extractor calls. -/
def runOutputs (s : Nat) : List Extractor → List Int
  | [] => []
  | e :: cs => callValue e s :: runOutputs (callState e s) cs

lemma next_state_lt (s : Nat) : next_state s < 2 ^ 128 :=
  Nat.mod_lt _ (by norm_num)

lemma next_state_odd {s : Nat} (hs : s % 2 = 1) : next_state s % 2 = 1 := by
  unfold next_state
  rw [Nat.mod_mod_of_dvd _ (by norm_num : (2 : Nat) ∣ 2 ^ 128), Nat.mul_mod, hs]
  decide

lemma or_one_odd (x : Nat) : (x ||| 1) % 2 = 1 :=
  Nat.or_mod_two_eq_one.mpr (Or.inr rfl)

lemma two_mul_or_one (k : Nat) : 2 * k ||| 1 = 2 * k + 1 := by
  have h := Nat.mul_add_lt_is_or (a := k) (i := 1) (b := 1) (by norm_num)
  simpa using h.symm

lemma with_seed_eq (seed : Nat) : with_seed seed = 2 * (seed % 2 ^ 127) + 1 := by
  unfold with_seed
  rw [Nat.shiftLeft_eq, pow_one, mul_comm seed 2,
    (by ring : (2 : Nat) ^ 128 = 2 * 2 ^ 127), Nat.mul_mod_mul_left,
    two_mul_or_one]

lemma gen_u64_lt (s : Nat) : (gen_u64Step s).1 < 2 ^ 64 := by
  show next_state s >>> 64 < 2 ^ 64
  rw [Nat.shiftRight_eq_div_pow]
  exact Nat.div_lt_of_lt_mul (by simpa using next_state_lt s)

lemma and_mask_low (g : Nat) : g &&& MASK_LOW = g % 2 ^ 32 := by
  have hm : MASK_LOW = 2 ^ 32 - 1 := by decide
  rw [hm, Nat.and_pow_two_sub_one_eq_mod]

lemma and_mask_high {g : Nat} (hg : g < 2 ^ 64) :
    (g &&& MASK_HIGH) >>> 32 = g >>> 32 := by
  have hm : MASK_HIGH = (2 ^ 32 - 1) <<< 32 := by decide
  rw [hm]
  apply Nat.eq_of_testBit_eq
  intro i
  rw [Nat.testBit_shiftRight, Nat.testBit_shiftRight, Nat.testBit_and,
    Nat.testBit_shiftLeft, Nat.testBit_two_pow_sub_one]
  by_cases hi : i < 32
  · have h1 : 32 ≤ 32 + i := by omega
    have h2 : 32 + i - 32 < 32 := by omega
    simp [h1, h2, hi]
  · have h64 : g.testBit (32 + i) = false :=
      Nat.testBit_lt_two_pow
        (lt_of_lt_of_le hg (Nat.pow_le_pow_right (by norm_num) (by omega)))
    simp [h64]

lemma u32_val_eq (s : Nat) :
    (u32Step s).1 = (gen_u64Step s).1 / 2 ^ 32 ^^^ (gen_u64Step s).1 % 2 ^ 32 := by
  show ((gen_u64Step s).1 &&& MASK_HIGH) >>> 32 ^^^ ((gen_u64Step s).1 &&& MASK_LOW)
      = (gen_u64Step s).1 / 2 ^ 32 ^^^ (gen_u64Step s).1 % 2 ^ 32
  rw [and_mask_low, and_mask_high (gen_u64_lt s), Nat.shiftRight_eq_div_pow]

lemma u32_lt (s : Nat) : (u32Step s).1 < 2 ^ 32 := by
  rw [u32_val_eq]
  exact Nat.xor_lt_two_pow
    (Nat.div_lt_of_lt_mul (by simpa using gen_u64_lt s))
    (Nat.mod_lt _ (by norm_num))

lemma u16_lt (s : Nat) : (u16Step s).1 < 2 ^ 16 := by
  show (u32Step s).1 >>> 16 < 2 ^ 16
  rw [Nat.shiftRight_eq_div_pow]
  exact Nat.div_lt_of_lt_mul (by simpa using u32_lt s)

lemma u8_lt (s : Nat) : (u8Step s).1 < 2 ^ 8 := by
  show (u32Step s).1 >>> 24 < 2 ^ 8
  rw [Nat.shiftRight_eq_div_pow]
  exact Nat.div_lt_of_lt_mul (by simpa using u32_lt s)

lemma toSigned_emod {w v : Nat} (hv : v < 2 ^ w) :
    toSigned w v % (2 ^ w : Int) = (v : Int) := by
  have hvi : (v : Int) < 2 ^ w := by exact_mod_cast hv
  unfold toSigned
  split
  · exact Int.emod_eq_of_lt (by positivity) hvi
  · rw [(by ring : (v : Int) - 2 ^ w = v + (-1) * 2 ^ w), Int.add_mul_emod_self]
    exact Int.emod_eq_of_lt (by positivity) hvi

lemma callState_eq (e : Extractor) (s : Nat) : callState e s = next_state s := by
  cases e <;> rfl

lemma stateAfterN_shift (s n : Nat) :
    stateAfterN (next_state s) n = next_state (stateAfterN s n) := by
  induction n with
  | zero => rfl
  | succ n ih => show next_state _ = _; rw [ih]; rfl

lemma stateAfterN_closed (s : Nat) (hs : s < 2 ^ 128) (n : Nat) :
    stateAfterN s n = s * MULT ^ n % 2 ^ 128 := by
  induction n with
  | zero => simpa [stateAfterN] using (Nat.mod_eq_of_lt hs).symm
  | succ n ih =>
    show next_state (stateAfterN s n) = _
    unfold next_state
    rw [ih, Nat.mod_mul_mod]
    congr 1
    ring

lemma runState_eq_stateAfterN (s : Nat) (cs : List Extractor) :
    runState s cs = stateAfterN s cs.length := by
  induction cs generalizing s with
  | nil => rfl
  | cons e cs ih =>
    show runState (callState e s) cs = _
    rw [callState_eq, ih, List.length_cons, stateAfterN_shift]
    rfl

lemma xor_high_bit_mod (s : Nat) : (s ^^^ 2 ^ 127) % 2 ^ 127 = s % 2 ^ 127 := by
  apply Nat.eq_of_testBit_eq
  intro i
  rw [Nat.testBit_mod_two_pow, Nat.testBit_mod_two_pow, Nat.testBit_xor]
  by_cases hi : i < 127
  · have hne : (127 : Nat) ≠ i := by omega
    rw [Nat.testBit_two_pow_of_ne hne]
    simp [hi]
  · simp [hi]

/-- C1 counterexample: duplicating a generator seeded with 0 leaves the source
and the duplicate holding the same state, and the duplicate's first 64-bit
output equals the source's next output — against the claim that the states
differ and the outputs differ. -/
theorem clone_shares_state_at_zero_seed :
    (cloneStep (with_seed 0)).1 = (cloneStep (with_seed 0)).2 ∧
    (u64Step (cloneStep (with_seed 0)).2).1 = (u64Step (cloneStep (with_seed 0)).1).1 :=
  ⟨rfl, rfl⟩

/-- C1 (amended): duplicating advances the source's state exactly once and
uses the advanced value verbatim as the duplicate's initial state; afterwards
the source and the duplicate hold the same state, and the duplicate's first
output equals the source's next output. -/
theorem clone_advances_once_shares_state (s : Nat) :
    (cloneStep s).1 = next_state s ∧ (cloneStep s).2 = next_state s ∧
    (cloneStep s).1 = (cloneStep s).2 ∧
    (u64Step (cloneStep s).2).1 = (u64Step (cloneStep s).1).1 :=
  ⟨rfl, rfl, rfl, rfl⟩

/-- C2: for two generators built from the same explicit seed and each advanced
by one draw, duplicating each gives D1 and D2 such that D1's next output
equals G1's next output taken immediately after duplication, and D1's and D2's
subsequent output sequences coincide. -/
theorem clone_deterministic (s1 s2 : Nat) (h : s1 = s2) :
    (u64Step (cloneStep (u64Step (with_seed s1)).2).2).1
        = (u64Step (cloneStep (u64Step (with_seed s1)).2).1).1 ∧
    ∀ n, u64Seq (cloneStep (u64Step (with_seed s1)).2).2 n
        = u64Seq (cloneStep (u64Step (with_seed s2)).2).2 n := by
  subst h
  exact ⟨rfl, fun n => rfl⟩

/-- C2 witness at seed 0. -/
theorem clone_deterministic_witness :
    (u64Step (cloneStep (u64Step (with_seed 0)).2).2).1
        = (u64Step (cloneStep (u64Step (with_seed 0)).2).1).1 ∧
    ∀ n, u64Seq (cloneStep (u64Step (with_seed 0)).2).2 n
        = u64Seq (cloneStep (u64Step (with_seed 0)).2).2 n :=
  clone_deterministic 0 0 rfl

/-- C3 counterexample: the FIRST 64-bit draw from the generator seeded with
raw value 0 is 1360472147205615982, not the literal 4075977849992214257 the
claim promises for one draw. -/
theorem first_draw_zero_seed_ne_literal :
    (u64Step (with_seed 0)).1 ≠ 4075977849992214257 := by decide

/-- C3 (amended): seeding with raw value 0 normalizes the state to 1; the
first 64-bit draw is 1360472147205615982 — in particular not 0 — and the
second 64-bit draw yields exactly 4075977849992214257, matching the crate's
own test which draws twice. -/
theorem zero_seed_draw_values :
    with_seed 0 = 1 ∧ (u64Step (with_seed 0)).1 = 1360472147205615982 ∧
    (u64Step (with_seed 0)).1 ≠ 0 ∧
    (u64Step (u64Step (with_seed 0)).2).1 = 4075977849992214257 := by
  decide

/-- C4: every construction path — explicit seeding, the seed-source
initialization behind auto-seeding, `Rng::new`, duplication — yields an odd
state, one transition maps an odd state to an odd state, and the state stays
odd after any number of transitions. -/
theorem state_always_odd :
    (∀ seed, with_seed seed % 2 = 1) ∧
    (∀ h, seedSourceInit h % 2 = 1) ∧
    (∀ t, t % 2 = 1 → (newStep t).1 % 2 = 1) ∧
    (∀ s, s % 2 = 1 → (cloneStep s).2 % 2 = 1) ∧
    (∀ s, s % 2 = 1 → next_state s % 2 = 1) ∧
    (∀ s n, s % 2 = 1 → stateAfterN s n % 2 = 1) := by
  refine ⟨fun seed => or_one_odd _, fun h => or_one_odd _,
    fun t ht => next_state_odd ht, fun s hs => next_state_odd hs,
    fun s hs => next_state_odd hs, fun s n hs => ?_⟩
  induction n with
  | zero => exact hs
  | succ n ih => exact next_state_odd ih

/-- C4 witness at concrete states. -/
theorem state_always_odd_witness :
    with_seed 4 % 2 = 1 ∧ (newStep 1).1 % 2 = 1 ∧ (cloneStep 3).2 % 2 = 1 ∧
    next_state 5 % 2 = 1 ∧ stateAfterN 7 3 % 2 = 1 :=
  ⟨state_always_odd.1 4, state_always_odd.2.2.1 1 rfl,
    state_always_odd.2.2.2.1 3 rfl, state_always_odd.2.2.2.2.1 5 rfl,
    state_always_odd.2.2.2.2.2 7 3 rfl⟩

/-- C5 counterexample: the caller's low seed bit is NOT discarded — seeds 0
and 1, which differ only in the low bit, give the distinct states 1 and 3,
and the low bit of seed 1 survives at bit 1 of the state. -/
theorem low_bit_not_discarded :
    with_seed 0 = 1 ∧ with_seed 1 = 3 ∧ with_seed 0 ≠ with_seed 1 ∧
    Nat.testBit (with_seed 1) 1 = true := by decide

/-- C5 (amended): explicit-seed construction sets the state to
`(seed << 1) | 1` modulo `2 ^ 128`, forcing the low bit to 1; the caller's
original low bit is pushed to bit 1 of the state and preserved there, and the
state equals `2 * (seed mod 2 ^ 127) + 1` — what the normalization discards is
the seed's most significant bit, not its low bit. -/
theorem with_seed_normalization (seed : Nat) (_hs : seed < 2 ^ 128) :
    with_seed seed % 2 = 1 ∧
    with_seed seed / 2 % 2 = seed % 2 ∧
    with_seed seed = 2 * (seed % 2 ^ 127) + 1 := by
  refine ⟨or_one_odd _, ?_, with_seed_eq seed⟩
  rw [with_seed_eq]
  rw [(by omega : (2 * (seed % 2 ^ 127) + 1) / 2 = seed % 2 ^ 127),
    Nat.mod_mod_of_dvd _ (by norm_num : (2 : Nat) ∣ 2 ^ 127)]

/-- C5 witness at seed 6. -/
theorem with_seed_normalization_witness :
    with_seed 6 % 2 = 1 ∧ with_seed 6 / 2 % 2 = 6 % 2 ∧
    with_seed 6 = 2 * (6 % 2 ^ 127) + 1 :=
  with_seed_normalization 6 (by decide)

/-- C6: within a single transition step, the 32-bit output equals the XOR of
the low and high 32-bit halves of the 64-bit output, the 16-bit output is
bits 31..16 of that 32-bit value, the 8-bit output is bits 31..24 of it, and
the 64-bit output is the high 64 bits of the new 128-bit state. -/
theorem width_folding_consistency (s : Nat) :
    (u64Step s).1 = next_state s / 2 ^ 64 ∧
    (u32Step s).1 = (u64Step s).1 % 2 ^ 32 ^^^ (u64Step s).1 / 2 ^ 32 ∧
    (u16Step s).1 = (u32Step s).1 / 2 ^ 16 % 2 ^ 16 ∧
    (u8Step s).1 = (u32Step s).1 / 2 ^ 24 % 2 ^ 8 := by
  refine ⟨?_, ?_, ?_, ?_⟩
  · show next_state s >>> 64 = _
    rw [Nat.shiftRight_eq_div_pow]
  · rw [u32_val_eq, Nat.xor_comm]
    rfl
  · show (u32Step s).1 >>> 16 = _
    rw [Nat.shiftRight_eq_div_pow,
      Nat.mod_eq_of_lt (Nat.div_lt_of_lt_mul (by simpa using u32_lt s))]
  · show (u32Step s).1 >>> 24 = _
    rw [Nat.shiftRight_eq_div_pow,
      Nat.mod_eq_of_lt (Nat.div_lt_of_lt_mul (by simpa using u32_lt s))]

/-- C7: for each width, the signed output reinterpreted as unsigned (that is,
reduced modulo `2 ^ w` over the integers) equals the unsigned output of the
same width from the same draw, and the signed draw advances the state exactly
as the unsigned one does. -/
theorem signed_unsigned_bit_pattern (s : Nat) :
    (i64Step s).1 % (2 ^ 64 : Int) = ((u64Step s).1 : Int) ∧
    (i64Step s).2 = (u64Step s).2 ∧
    (i32Step s).1 % (2 ^ 32 : Int) = ((u32Step s).1 : Int) ∧
    (i32Step s).2 = (u32Step s).2 ∧
    (i16Step s).1 % (2 ^ 16 : Int) = ((u16Step s).1 : Int) ∧
    (i16Step s).2 = (u16Step s).2 ∧
    (i8Step s).1 % (2 ^ 8 : Int) = ((u8Step s).1 : Int) ∧
    (i8Step s).2 = (u8Step s).2 :=
  ⟨toSigned_emod (gen_u64_lt s), rfl, toSigned_emod (u32_lt s), rfl,
    toSigned_emod (u16_lt s), rfl, toSigned_emod (u8_lt s), rfl⟩

/-- C8: any mix of N extractor calls advances the state exactly N times — the
final state matches a generator driven N times through the raw transition
function alone, and equals `s * MULT ^ N mod 2 ^ 128`. -/
theorem extraction_advances_once (s : Nat) (hs : s < 2 ^ 128)
    (cs : List Extractor) :
    runState s cs = stateAfterN s cs.length ∧
    runState s cs = s * MULT ^ cs.length % 2 ^ 128 := by
  refine ⟨runState_eq_stateAfterN s cs, ?_⟩
  rw [runState_eq_stateAfterN, stateAfterN_closed s hs]

/-- C8 witness: a mixed three-call sequence from state 3. -/
theorem extraction_advances_once_witness :
    runState 3 [Extractor.u64, Extractor.i32, Extractor.u8]
        = stateAfterN 3 [Extractor.u64, Extractor.i32, Extractor.u8].length ∧
    runState 3 [Extractor.u64, Extractor.i32, Extractor.u8]
        = 3 * MULT ^ [Extractor.u64, Extractor.i32, Extractor.u8].length % 2 ^ 128 :=
  extraction_advances_once 3 (by decide) [Extractor.u64, Extractor.i32, Extractor.u8]

/-- C9: the pipeline of explicit seeding plus extraction is a deterministic
function of the seed and the call sequence — two generators built from equal
seeds produce equal output sequences under equal call sequences. -/
theorem output_determinism (s1 s2 : Nat) (cs1 cs2 : List Extractor)
    (hs : s1 = s2) (hc : cs1 = cs2) :
    runOutputs (with_seed s1) cs1 = runOutputs (with_seed s2) cs2 := by
  subst hs
  subst hc
  rfl

/-- C9 witness at seed 0 with a two-call sequence. -/
theorem output_determinism_witness :
    runOutputs (with_seed 0) [Extractor.u64, Extractor.i16]
        = runOutputs (with_seed 0) [Extractor.u64, Extractor.i16] :=
  output_determinism 0 0 [Extractor.u64, Extractor.i16]
    [Extractor.u64, Extractor.i16] rfl rfl

/-- C10: the normalization `(seed << 1) | 1` discards exactly the seed's most
significant bit: flipping bit 127 leaves the initial state unchanged, every
seed collapses onto its residue modulo `2 ^ 127`, and distinct seeds below
`2 ^ 127` give distinct states — so the `2 ^ 128` seeds reach exactly
`2 ^ 127` initial states. -/
theorem seed_top_bit_discarded :
    (∀ seed, seed < 2 ^ 128 → with_seed (seed ^^^ 2 ^ 127) = with_seed seed) ∧
    (∀ seed, seed < 2 ^ 128 → with_seed seed = with_seed (seed % 2 ^ 127)) ∧
    (∀ a b, a < 2 ^ 127 → b < 2 ^ 127 → with_seed a = with_seed b → a = b) := by
  refine ⟨fun seed _ => ?_, fun seed _ => ?_, fun a b ha hb hab => ?_⟩
  · rw [with_seed_eq, with_seed_eq, xor_high_bit_mod]
  · rw [with_seed_eq, with_seed_eq, Nat.mod_mod_of_dvd seed dvd_rfl]
  · rw [with_seed_eq, with_seed_eq, Nat.mod_eq_of_lt ha, Nat.mod_eq_of_lt hb] at hab
    omega

/-- C10 witness: flipping bit 127 of seed 3, and reducing seed 3 modulo
`2 ^ 127`, leave the initial state unchanged. -/
theorem seed_top_bit_discarded_witness :
    with_seed (3 ^^^ 2 ^ 127) = with_seed 3 ∧
    with_seed 3 = with_seed (3 % 2 ^ 127) :=
  ⟨seed_top_bit_discarded.1 3 (by decide), seed_top_bit_discarded.2.1 3 (by decide)⟩

end Lehmerand
